import Mathlib

/-!
Verification of the pyrfc6266 Content-Disposition parser (`src/pyrfc6266/_main.py`).

The Python source builds a pyparsing grammar and post-processes its results.
This file is a shallow embedding of that code:
- the pyparsing grammar (`parser`, `ext_value`) is embedded as deterministic
  recursive-descent parsers over `List Char`, with pyparsing's semantics:
  each leaf element skips leading whitespace (pyparsing's default whitespace
  characters are space, newline, tab and carriage return),
  `Combine(..., adjacent=True)` suppresses that skipping inside the combined
  expression while re-enabling it on the `Combine` itself, alternatives
  (`MatchFirst`) are ordered choice without backtracking into a committed
  alternative, `parse_string` first expands tabs (Python `str.expandtabs()`)
  and with `parse_all=True` requires only trailing whitespace to remain;
- the result-processing loop of `parse`, `secure_filename`,
  `parse_filename` and its handlers are embedded directly.
Python `None`/`str` results are `Option String`; a raised
`pyparsing.ParseException` (the only exception `parse` raises, since it
converts `UnicodeDecodeError` into one) is `Except.error PError.parseException`.
-/

namespace Pyrfc6266

/-- The single error kind the code raises: `pyparsing.ParseException`. -/
inductive PError
  | parseException
deriving DecidableEq, Repr

/-- `ContentDisposition` dataclass from the source. -/
structure ContentDisposition where
  name : String
  value : String
deriving DecidableEq, Repr

/- Character constants (written via code points to keep the text plain). -/

def quoteChar : Char := Char.ofNat 34

def squoteChar : Char := Char.ofNat 39

def backslashChar : Char := Char.ofNat 92

def slashChar : Char := '/'

def starChar : Char := '*'

def eqChar : Char := '='

def semiChar : Char := ';'

def pctChar : Char := '%'

def spaceChar : Char := Char.ofNat 32

def tabChar : Char := Char.ofNat 9

def newlineChar : Char := Char.ofNat 10

def crChar : Char := Char.ofNat 13

/-- `token_chars` from the source. -/
def token_chars : String :=
  "!#$%&'*+-.0123456789ABCDEFGHIJKLMNOPQRSTUVWXYZ^_`abcdefghijklmnopqrstuvwxyz|~"

/-- `token_chars_without_wildcard` from the source: `token_chars` minus the star. -/
def token_chars_without_wildcard : String :=
  "!#$%&'+-.0123456789ABCDEFGHIJKLMNOPQRSTUVWXYZ^_`abcdefghijklmnopqrstuvwxyz|~"

/-- The attribute-character set of the `Word` inside `ext_value` (source line 58). -/
def attr_chars : String :=
  "!#$&+-.0123456789ABCDEFGHIJKLMNOPQRSTUVWXYZ^_`abcdefghijklmnopqrstuvwxyz|~"

/-- Hex digits accepted after a percent sign in `ext_value` (source line 60). -/
def hexdigit_chars : String := "abcdefABCDEF0123456789"

/-- pyparsing `alphas` plus a space: the language-tag word of `ext_value`. -/
def alpha_space_chars : String :=
  "ABCDEFGHIJKLMNOPQRSTUVWXYZabcdefghijklmnopqrstuvwxyz "

def inCharset (cs : String) (c : Char) : Bool := cs.data.contains c

/-- pyparsing default whitespace characters: space, newline, tab and
carriage return. -/
def isWsChar (c : Char) : Bool :=
  c == spaceChar || c == newlineChar || c == tabChar || c == crChar

def skipWs (s : List Char) : List Char := s.dropWhile (fun c => isWsChar c)

/-- Python `str.expandtabs()` (tab size 8; the column resets after a newline
or carriage return), applied by `parse_string` before parsing. -/
def expandtabsFrom : Nat → List Char → List Char
  | _, [] => []
  | col, c :: rest =>
    if c == tabChar then
      let n := 8 - col % 8
      List.replicate n spaceChar ++ expandtabsFrom (col + n) rest
    else if c == newlineChar || c == crChar then
      c :: expandtabsFrom 0 rest
    else
      c :: expandtabsFrom (col + 1) rest

def expandtabs (s : List Char) : List Char := expandtabsFrom 0 s

/-- Match an exact literal, character by character (pyparsing `Literal`),
with no whitespace skipping; callers skip whitespace first where pyparsing does. -/
def litMatch : List Char → List Char → Option (List Char)
  | [], s => some s
  | c :: l, d :: s => if c == d then litMatch l s else none
  | _ :: _, [] => none

/-- Python `str.upper()` restricted to one character, as needed to compare
input slices against the ASCII literals of this grammar: ASCII lowercase
letters map up; dotless i (U+0131) and long s (U+017F) are the only
non-ASCII characters whose Python uppercase is a single ASCII letter.  Every
other character uppercases to a non-ASCII or multi-character string, which
can never make the slice equal to the uppercased ASCII literal (a length
change alone forces inequality), so mapping such characters to themselves is
extensionally equivalent for these comparisons. -/
def pyUpperAscii (c : Char) : Char :=
  if 97 ≤ c.toNat && c.toNat ≤ 122 then Char.ofNat (c.toNat - 32)
  else if c.toNat == 305 then Char.ofNat 73
  else if c.toNat == 383 then Char.ofNat 83
  else c

/-- pyparsing `CaselessLiteral`: the input slice of the literal's length is
compared with the literal after Python `str.upper()` on both sides. -/
def caselessMatch : List Char → List Char → Option (List Char)
  | [], s => some s
  | c :: l, d :: s => if pyUpperAscii c == pyUpperAscii d then caselessMatch l s else none
  | _ :: _, [] => none

/-- pyparsing `Word(cs)`: maximal run (at least one) of characters from `cs`. -/
def wordOf (cs : String) (s : List Char) : Option (List Char × List Char) :=
  let w := s.takeWhile (fun c => inCharset cs c)
  if w.isEmpty then none else some (w, s.drop w.length)

/-- pyparsing `Word(cs, min=1, max=3)`: maximal run capped at three characters. -/
def wordUpTo3 (cs : String) (s : List Char) : Option (List Char × List Char) :=
  let w := (s.takeWhile (fun c => inCharset cs c)).take 3
  if w.isEmpty then none else some (w, s.drop w.length)

/-- Skip whitespace, then require the single character `ch` (pyparsing
`Literal` with its default leading-whitespace skipping). -/
def expectCharWs (ch : Char) (s : List Char) : Option (List Char) :=
  match skipWs s with
  | c :: r => if c == ch then some r else none
  | [] => none

def dropTrailingStars (l : List Char) : List Char :=
  (l.reverse.dropWhile (fun c => c == starChar)).reverse

/-- The `unencoded_token` regex of the source,
`[token_chars]*[token_chars_without_wildcard]`: the longest prefix made of
token characters that ends in a non-star character, i.e. the maximal run of
token characters with its trailing stars stripped; fails if that is empty. -/
def unencoded_token (s : List Char) : Option (List Char × List Char) :=
  let run := s.takeWhile (fun c => inCharset token_chars c)
  let name := dropTrailingStars run
  if name.isEmpty then none else some (name, s.drop name.length)

/-- Scan of the quoted-string body: an escape character may precede any
character except a newline; a bare character may not be the quote, the
escape character, a newline or a carriage return; ends at the closing quote.
Returns the raw body (escapes still present) and the rest of the input. -/
def qs_raw : List Char → Option (List Char × List Char)
  | [] => none
  | c :: rest =>
    if c == quoteChar then some ([], rest)
    else if c == backslashChar then
      match rest with
      | [] => none
      | d :: rest2 =>
        if d == newlineChar then none
        else (qs_raw rest2).map (fun p => (c :: d :: p.1, p.2))
    else if c == newlineChar || c == crChar then none
    else (qs_raw rest).map (fun p => (c :: p.1, p.2))

/-- Unescaping pass of `QuotedString` with `convert_whitespace_escapes=False`:
each escape character plus following character is replaced by that character. -/
def qs_unescape : List Char → List Char
  | [] => []
  | c :: rest =>
    if c == backslashChar then
      match rest with
      | [] => [c]
      | d :: rest2 => d :: qs_unescape rest2
    else c :: qs_unescape rest

/-- Second pass of `QuotedString` unquoting: the `esc_quote` sequence
(backslash quote) is replaced by a quote (Python `str.replace`,
left to right, non-overlapping). -/
def esc_quote_replace : List Char → List Char
  | [] => []
  | [c] => [c]
  | c :: d :: rest =>
    if c == backslashChar && d == quoteChar then quoteChar :: esc_quote_replace rest
    else c :: esc_quote_replace (d :: rest)

/-- The `QuotedString` element of the source (`quote_char='"'`,
`esc_quote='\"'`, `esc_char` backslash, `convert_whitespace_escapes=False`). -/
def quoted_string (s : List Char) : Option (List Char × List Char) :=
  match s with
  | [] => none
  | c :: rest =>
    if c == quoteChar then
      (qs_raw rest).map (fun p => (esc_quote_replace (qs_unescape p.1), p.2))
    else none

/-- `value = token | QuotedString(...)`: ordered choice, each alternative
skipping leading whitespace. -/
def value_parse (s : List Char) : Option (List Char × List Char) :=
  let s1 := skipWs s
  match wordOf token_chars s1 with
  | some r => some r
  | none => quoted_string s1

/-- First alternative of `disp_ext_parm`: `unencoded_token + "=" + value`. -/
def disp_parm_alt1 (s : List Char) : Option ((List Char × List Char) × List Char) := do
  let (n, r) ← unencoded_token s
  let r2 ← expectCharWs eqChar r
  let (v, r3) ← value_parse r2
  pure ((n, v), r3)

/-- Second alternative of `disp_ext_parm`:
`Combine(unencoded_token + "*") + "=" + value`; inside the `Combine` the star
must be adjacent (no whitespace skipping). -/
def disp_parm_alt2 (s : List Char) : Option ((List Char × List Char) × List Char) := do
  let (n, r) ← unencoded_token s
  match r with
  | c :: r2 =>
    if c == starChar then do
      let r3 ← expectCharWs eqChar r2
      let (v, r4) ← value_parse r3
      pure ((n ++ [starChar], v), r4)
    else none
  | [] => none

/-- `disp_ext_parm`: ordered choice of the two alternatives, both restarted
from the same pre-whitespace position (each alternative pre-skips whitespace). -/
def disp_ext_parm (s : List Char) : Option ((List Char × List Char) × List Char) :=
  let s0 := skipWs s
  match disp_parm_alt1 s0 with
  | some r => some r
  | none => disp_parm_alt2 s0

/-- `disposition_type = CaselessLiteral("inline") | CaselessLiteral("attachment") | token`;
a caseless literal yields its canonical text. -/
def disposition_type (s : List Char) : Option (List Char × List Char) :=
  match caselessMatch "inline".data s with
  | some r => some ("inline".data, r)
  | none =>
    match caselessMatch "attachment".data s with
    | some r => some ("attachment".data, r)
    | none => wordOf token_chars s

/-- One iteration of `ZeroOrMore(Literal(";") + disposition_parm)`. -/
def semiParm (s : List Char) : Option ((List Char × List Char) × List Char) :=
  match expectCharWs semiChar s with
  | some r => disp_ext_parm r
  | none => none

/-- `ZeroOrMore(Literal(";") + disposition_parm)`: repeat until an iteration
fails; a failed iteration consumes nothing.  The fuel argument only bounds the
recursion; each successful iteration consumes at least the semicolon, so fuel
equal to the input length plus one never runs out. -/
def parms_loop : Nat → List Char → List (List Char × List Char) × List Char
  | 0, s => ([], s)
  | fuel + 1, s =>
    match semiParm s with
    | some (p, r) =>
      let (ps, r2) := parms_loop fuel r
      (p :: ps, r2)
    | none => ([], s)

/-- `parser.parse_string(header, parse_all=True)` for the top-level grammar
`disposition_type + ZeroOrMore(";" + disposition_parm) + Optional(";")`:
expand tabs, skip leading whitespace, parse, allow one trailing semicolon,
and require that only whitespace remains.  Each parameter is returned as
pyparsing delivers it to the loop in `parse`: the joined name group
(name plus the equals sign, original spelling) and the value token. -/
def parser_run (header : String) : Option (String × List (String × String)) :=
  let s := expandtabs header.data
  match disposition_type (skipWs s) with
  | none => none
  | some (ty, r) =>
    let (pairs, r2) := parms_loop (r.length + 1) r
    let r3 :=
      match expectCharWs semiChar r2 with
      | some r4 => r4
      | none => r2
    if (skipWs r3).isEmpty then
      some (String.mk ty, pairs.map (fun pv => (String.mk (pv.1 ++ [eqChar]), String.mk pv.2)))
    else none

/-- Parse result of `ext_value`: the named `encoding` result (absent when the
`Empty()` alternative matched) and the joined `value` tokens. -/
structure ExtValue where
  encoding : Option String
  value : String
deriving DecidableEq, Repr

/-- `OneOrMore(Word(attr_chars) | ("%" + Word(hexdigit_chars, exact=2)))`:
returns the concatenation of the matched pieces and the rest; the caller
checks that at least one piece matched (the concatenation is nonempty). -/
def ext_pieces : Nat → List Char → List Char × List Char
  | 0, s => ([], s)
  | fuel + 1, s =>
    match wordOf attr_chars s with
    | some (w, r) =>
      let (ws, r2) := ext_pieces fuel r
      (w ++ ws, r2)
    | none =>
      match s with
      | c :: h1 :: h2 :: r =>
        if c == pctChar && inCharset hexdigit_chars h1 && inCharset hexdigit_chars h2 then
          let (ws, r2) := ext_pieces fuel r
          (c :: h1 :: h2 :: ws, r2)
        else ([], s)
      | _ => ([], s)

/-- The `ext_value` grammar (a `Combine`, so no whitespace skipping inside):
`(CaselessLiteral("UTF-8") | CaselessLiteral("ISO-8859-1") | Empty()) + "'"
 + Optional(Word(alphas+" ", min=1, max=3)) + "'" + OneOrMore(...)`. -/
def ext_value_run (s : List Char) : Option (ExtValue × List Char) :=
  let encAndRest :=
    match caselessMatch "UTF-8".data s with
    | some r => (some "UTF-8", r)
    | none =>
      match caselessMatch "ISO-8859-1".data s with
      | some r => (some "ISO-8859-1", r)
      | none => (none, s)
  match encAndRest with
  | (enc, s1) =>
    match s1 with
    | [] => none
    | c :: s2 =>
      if c == squoteChar then
        let s3 :=
          match wordUpTo3 alpha_space_chars s2 with
          | some (_, r) => r
          | none => s2
        match s3 with
        | [] => none
        | d :: s4 =>
          if d == squoteChar then
            let (v, s5) := ext_pieces (s4.length + 1) s4
            if v.isEmpty then none else some (⟨enc, String.mk v⟩, s5)
          else none
      else none

/-- `ext_value.parse_string(value, parse_all=True)`: expand tabs, skip
leading whitespace (the `Combine` suppresses skipping inside the combined
expression but re-enables it on itself, so its pre-parse still skips), parse,
tolerate trailing whitespace. -/
def ext_value_parse_all (v : String) : Option ExtValue :=
  match ext_value_run (skipWs (expandtabs v.data)) with
  | some (r, rest) => if (skipWs rest).isEmpty then some r else none
  | none => none

/-- Value of a hex digit, both cases (`urllib.parse` `_hextobyte`). -/
def hexVal (c : Char) : Option Nat :=
  let n := c.toNat
  if 48 ≤ n && n ≤ 57 then some (n - 48)
  else if 97 ≤ n && n ≤ 102 then some (n - 87)
  else if 65 ≤ n && n ≤ 70 then some (n - 55)
  else none

/-- Percent-decoding of `urllib.parse.unquote` on an ASCII string: every
percent sign followed by two hex digits becomes that byte, every other
character contributes its own code (the strings reaching `unquote` in this
code are ASCII by the `ext_value` grammar); a percent sign not followed by
two hex digits stays literal. -/
def pct_decode : List Char → List Nat
  | [] => []
  | c :: h1 :: h2 :: r =>
    if c == pctChar then
      match hexVal h1, hexVal h2 with
      | some a, some b => (16 * a + b) :: pct_decode r
      | _, _ => c.toNat :: pct_decode (h1 :: h2 :: r)
    else c.toNat :: pct_decode (h1 :: h2 :: r)
  | c :: rest => c.toNat :: pct_decode rest

def isUtf8Cont (b : Nat) : Bool := 128 ≤ b && b ≤ 191

/-- Strict UTF-8 decoding of a byte sequence (Python `bytes.decode("utf-8",
errors="strict")`): rejects truncated sequences, stray continuation bytes,
overlong encodings, surrogates and code points above 0x10FFFF. -/
def utf8_decode : List Nat → Option (List Char)
  | [] => some []
  | b :: bs =>
    if b < 128 then
      (utf8_decode bs).map (fun cs => Char.ofNat b :: cs)
    else if b < 194 then none
    else if b < 224 then
      match bs with
      | b1 :: bs1 =>
        if isUtf8Cont b1 then
          (utf8_decode bs1).map (fun cs => Char.ofNat ((b - 192) * 64 + (b1 - 128)) :: cs)
        else none
      | [] => none
    else if b < 240 then
      match bs with
      | b1 :: b2 :: bs2 =>
        let lowOk :=
          if b == 224 then 160 ≤ b1 && b1 ≤ 191
          else if b == 237 then 128 ≤ b1 && b1 ≤ 159
          else isUtf8Cont b1
        if lowOk && isUtf8Cont b2 then
          (utf8_decode bs2).map
            (fun cs => Char.ofNat ((b - 224) * 4096 + (b1 - 128) * 64 + (b2 - 128)) :: cs)
        else none
      | _ => none
    else if b < 245 then
      match bs with
      | b1 :: b2 :: b3 :: bs3 =>
        let lowOk :=
          if b == 240 then 144 ≤ b1 && b1 ≤ 191
          else if b == 244 then 128 ≤ b1 && b1 ≤ 143
          else isUtf8Cont b1
        if lowOk && isUtf8Cont b2 && isUtf8Cont b3 then
          (utf8_decode bs3).map
            (fun cs =>
              Char.ofNat ((b - 240) * 262144 + (b1 - 128) * 4096 + (b2 - 128) * 64 + (b3 - 128)) :: cs)
        else none
      | _ => none
    else none

/-- ISO-8859-1 decoding: each byte is the code point of one character. -/
def latin1_decode (bs : List Nat) : List Char := bs.map (fun b => Char.ofNat b)

/-- `INVALID_ISO8859_1_CHARACTERS`: code points 0 to 31 and 127 to 159. -/
def invalid_iso_char (c : Char) : Bool :=
  c.toNat < 32 || (127 ≤ c.toNat && c.toNat < 160)

def has_invalid_iso (s : String) : Bool := s.data.any invalid_iso_char

/-- `urllib.parse.unquote(s, encoding=enc, errors="strict")` for the two
encodings the grammar can produce; `none` is the `UnicodeDecodeError` case.
ISO-8859-1 decoding never fails. -/
def unquote (s : String) (enc : String) : Option String :=
  let bs := pct_decode s.data
  if enc == "iso-8859-1" then some (String.mk (latin1_decode bs))
  else (utf8_decode bs).map String.mk

/-- Python `str.lower()` (the strings it is applied to here are ASCII). -/
def str_lower (s : String) : String := String.mk (s.data.map Char.toLower)

/-- Python `s[:-1]`. -/
def drop_last_char (s : String) : String := String.mk s.data.dropLast

/-- Python `s.endswith("*")`. -/
def ends_with_star (s : String) : Bool := s.data.getLast? == some starChar

/-- The result-processing loop of `parse` (source lines 104 to 131):
`seen` is the set of raw parameter spellings already seen (name plus equals
sign, original case), `acc` the dispositions collected so far. -/
def process_parms : List String → List ContentDisposition → List (String × String) →
    Except PError (List ContentDisposition)
  | _, acc, [] => Except.ok acc
  | seen, acc, (parmStr, valStr) :: rest =>
    if seen.contains parmStr then Except.error PError.parseException
    else
      let seen2 := parmStr :: seen
      let name := str_lower (drop_last_char parmStr)
      if ends_with_star name then
        match ext_value_parse_all valStr with
        | none => Except.error PError.parseException
        | some ev =>
          match ev.encoding with
          | none => process_parms seen2 acc rest
          | some enc =>
            let encL := str_lower enc
            match unquote ev.value encL with
            | none => Except.error PError.parseException
            | some vs =>
              if encL == "iso-8859-1" && has_invalid_iso vs then
                Except.error PError.parseException
              else process_parms seen2 (acc ++ [⟨name, vs⟩]) rest
      else process_parms seen2 (acc ++ [⟨name, valStr⟩]) rest

/-- `parse(header)` from the source: run the grammar, then process the
parameter list; the disposition type is lower-cased. -/
def parse (header : String) : Except PError (String × List ContentDisposition) :=
  match parser_run header with
  | none => Except.error PError.parseException
  | some (ty, pairs) =>
    (process_parms [] [] pairs).map (fun cds => (str_lower ty, cds))

/-- One single-character replacement pass (Python `str.replace` with a
one-character pattern replaces every occurrence). -/
def replaceChar (a b : Char) (s : String) : String :=
  String.mk (s.data.map (fun c => if c == a then b else c))

/-- `secure_filename`: replace each backslash, then each slash, by an underscore. -/
def secure_filename (filename : String) : String :=
  replaceChar slashChar '_' (replaceChar backslashChar '_' filename)

def findParm (cds : List ContentDisposition) (name : String) : Option ContentDisposition :=
  cds.find? (fun cd => cd.name == name)

def normal_filename (cd : ContentDisposition) : String := cd.value

/-- The continuation segment name `filename*{i}*` or `filename*{i}`. -/
def seg_name (i : Nat) (star : Bool) : String :=
  "filename*" ++ toString i ++ (if star then "*" else "")

/-- The loop body of `combine_filename`: for indices counting up from `i`,
append the value of the first parameter named `filename*{i}*`, otherwise of
the first named `filename*{i}`; stop at the first index with neither. -/
def combine_aux (cds : List ContentDisposition) : Nat → Nat → String → String
  | 0, _, acc => acc
  | fuel + 1, i, acc =>
    match findParm cds (seg_name i true) with
    | some cd => combine_aux cds fuel (i + 1) (acc ++ cd.value)
    | none =>
      match findParm cds (seg_name i false) with
      | some cd => combine_aux cds fuel (i + 1) (acc ++ cd.value)
      | none => acc

/-- `combine_filename`: start from the initial segment's value; the source's
`range(1, 99999)` runs the index from 1 for at most 99998 iterations. -/
def combine_filename (cds : List ContentDisposition) (cd : ContentDisposition) : String :=
  combine_aux cds 99998 1 cd.value

/-- The `header_handlers` list of `parse_filename`, in source order. -/
def header_handlers (cds : List ContentDisposition) :
    List (String × (ContentDisposition → String)) :=
  [("filename*", normal_filename),
   ("filename", normal_filename),
   ("filename*0*", fun cd => combine_filename cds cd),
   ("filename*0", fun cd => combine_filename cds cd)]

/-- Python truthiness of the `filename` variable (`None` and the empty
string are falsy). -/
def truthy : Option String → Bool
  | none => false
  | some f => !(f == "")

/-- The inner loop of the handler scan: walk the disposition list; on a name
match assign `filename = handler_func(cd)` and break if it is truthy.
Returns the `filename` variable and whether the loop broke. -/
def try_handler (name : String) (handler : ContentDisposition → String) :
    List ContentDisposition → Option String → Option String × Bool
  | [], st => (st, false)
  | cd :: rest, st =>
    if cd.name == name then
      let f := handler cd
      if f == "" then try_handler name handler rest (some f)
      else (some f, true)
    else try_handler name handler rest st

/-- The outer loop over `header_handlers`: after the inner loop the code
checks `if filename: break` again. -/
def run_handlers (cds : List ContentDisposition) :
    List (String × (ContentDisposition → String)) → Option String → Option String
  | [], st => st
  | (n, h) :: hs, st =>
    match try_handler n h cds st with
    | (st2, brk) =>
      if brk then st2
      else if truthy st2 then st2
      else run_handlers cds hs st2

/-- The tail of `parse_filename` after a successful `parse`: run the handler
loops, then `if filename: filename = secure_filename(filename)`; note that a
resolved empty string is returned as the empty string, not as `None`. -/
def resolve_filename (cds : List ContentDisposition) : Option String :=
  match run_handlers cds (header_handlers cds) none with
  | none => none
  | some f => if f == "" then some f else some (secure_filename f)

/-- `parse_filename(header, enforce_content_disposition_type)`. -/
def parse_filename (header : String) (enforce_content_disposition_type : Bool) :
    Except PError (Option String) :=
  match parse header with
  | Except.error e => Except.error e
  | Except.ok (t, cds) =>
    if enforce_content_disposition_type && !(t == "attachment" || t == "inline") then
      Except.ok none
    else Except.ok (resolve_filename cds)

/-- Raw-spelling duplicate test over the grammar's parameter names. -/
def has_raw_dup : List String → Bool
  | [] => false
  | p :: rest => rest.contains p || has_raw_dup rest

/-- Modelled from the claim's words (claim C3), not from the source: the
selection rule as the claim states it, presence-based with first match
winning, ignoring the code's truthiness fall-through. -/
def spec_claimed_precedence (cds : List ContentDisposition) : Option String :=
  match findParm cds "filename*" with
  | some cd => some (normal_filename cd)
  | none =>
    match findParm cds "filename" with
    | some cd => some (normal_filename cd)
    | none =>
      match findParm cds "filename*0*" with
      | some cd => some (combine_filename cds cd)
      | none => (findParm cds "filename*0").map (fun cd => combine_filename cds cd)

/-! ## Helper lemmas -/

/-- If the parameter list contains a raw-spelling duplicate, or a raw
spelling already in `seen`, the processing loop errors (possibly for an
earlier reason, but it never succeeds). -/
theorem process_parms_raw_dup (pairs : List (String × String)) :
    ∀ (seen : List String) (acc : List ContentDisposition),
      (has_raw_dup (pairs.map Prod.fst)
        || (pairs.map Prod.fst).any (fun p => seen.contains p)) = true →
      process_parms seen acc pairs = Except.error PError.parseException := by
  induction pairs with
  | nil =>
    intro seen acc h
    simp [has_raw_dup] at h
  | cons pv rest ih =>
    intro seen acc h
    obtain ⟨p, v⟩ := pv
    cases hc : seen.contains p with
    | true =>
      simp only [process_parms, hc]
      rfl
    | false =>
      have hcond : (has_raw_dup (rest.map Prod.fst)
          || (rest.map Prod.fst).any (fun q => (p :: seen).contains q)) = true := by
        simp only [List.map_cons, has_raw_dup, List.any_cons, hc, Bool.false_or,
          Bool.or_eq_true] at h
        simp only [Bool.or_eq_true]
        rcases h with (h | h) | h
        · refine Or.inr (List.any_eq_true.mpr ⟨p, ?_, ?_⟩)
          · exact List.mem_of_elem_eq_true h
          · exact List.elem_eq_true_of_mem (List.mem_cons_self p seen)
        · exact Or.inl h
        · refine Or.inr ?_
          rcases List.any_eq_true.mp h with ⟨q, hq, hq2⟩
          refine List.any_eq_true.mpr ⟨q, hq, ?_⟩
          exact List.elem_eq_true_of_mem
            (List.mem_cons_of_mem p (List.mem_of_elem_eq_true hq2))
      have hrec : ∀ acc2, process_parms (p :: seen) acc2 rest
          = Except.error PError.parseException := fun acc2 => ih (p :: seen) acc2 hcond
      simp only [process_parms, hc, Bool.false_eq_true, if_false]
      split
      · split
        · rfl
        · split
          · exact hrec _
          · split
            · rfl
            · split
              · rfl
              · exact hrec _
      · exact hrec _

/-- A successful processing loop, hence a successful `parse`, implies that no
two parameters shared a raw spelling. -/
theorem parse_ok_no_raw_dup (h : String) (ty : String) (pairs : List (String × String))
    (hrun : parser_run h = some (ty, pairs))
    (hdup : has_raw_dup (pairs.map Prod.fst) = true) :
    parse h = Except.error PError.parseException := by
  unfold parse
  rw [hrun]
  have hpp : process_parms [] [] pairs = Except.error PError.parseException := by
    refine process_parms_raw_dup pairs [] [] ?_
    simp [hdup]
  show Except.map (fun cds => (str_lower ty, cds)) (process_parms [] [] pairs)
      = Except.error PError.parseException
  rw [hpp]
  rfl

/-- If no parameter carries `name`, the inner handler scan leaves the
`filename` variable unchanged and does not break. -/
theorem try_handler_skip (name : String) (hd : ContentDisposition → String) :
    ∀ (cds : List ContentDisposition) (st : Option String),
      findParm cds name = none → try_handler name hd cds st = (st, false) := by
  intro cds
  induction cds with
  | nil => intro st _; rfl
  | cons cd rest ih =>
    intro st hf
    cases hcd : cd.name == name with
    | true =>
      exfalso
      simp only [findParm, List.find?] at hf
      rw [hcd] at hf
      cases hf
    | false =>
      simp only [findParm, List.find?] at hf
      rw [hcd] at hf
      simp only [try_handler, hcd, Bool.false_eq_true, if_false]
      exact ih st hf

/-- If the first parameter carrying `name` has a truthy handler value, the
inner handler scan assigns it and breaks there. -/
theorem try_handler_hit (name : String) (hd : ContentDisposition → String) :
    ∀ (cds : List ContentDisposition) (st : Option String) (cd : ContentDisposition),
      findParm cds name = some cd → (hd cd == "") = false →
      try_handler name hd cds st = (some (hd cd), true) := by
  intro cds
  induction cds with
  | nil => intro st cd hf; cases hf
  | cons cd0 rest ih =>
    intro st cd hf hv
    cases hcd : cd0.name == name with
    | true =>
      simp only [findParm, List.find?] at hf
      rw [hcd] at hf
      cases hf
      simp only [try_handler, hcd, if_true, hv, Bool.false_eq_true, if_false]
    | false =>
      simp only [findParm, List.find?] at hf
      rw [hcd] at hf
      simp only [try_handler, hcd, Bool.false_eq_true, if_false]
      exact ih st cd hf hv

/-- A parameter named `filename*` with a non-empty value wins the resolution. -/
theorem resolve_filename_star (cds : List ContentDisposition) (cd : ContentDisposition)
    (hf : findParm cds "filename*" = some cd) (hv : (cd.value == "") = false) :
    resolve_filename cds = some (secure_filename cd.value) := by
  unfold resolve_filename header_handlers
  simp only [run_handlers]
  rw [try_handler_hit "filename*" normal_filename cds none cd hf hv]
  simp only [if_true]
  rw [show normal_filename cd = cd.value from rfl, hv]
  simp

/-- With no `filename*` parameter, a `filename` parameter whose first
occurrence has a non-empty value wins the resolution. -/
theorem resolve_filename_plain (cds : List ContentDisposition) (cd : ContentDisposition)
    (hstar : findParm cds "filename*" = none)
    (hf : findParm cds "filename" = some cd) (hv : (cd.value == "") = false) :
    resolve_filename cds = some (secure_filename cd.value) := by
  unfold resolve_filename header_handlers
  simp only [run_handlers]
  rw [try_handler_skip "filename*" normal_filename cds none hstar]
  simp only [truthy, Bool.false_eq_true, if_false]
  rw [try_handler_hit "filename" normal_filename cds none cd hf hv]
  simp only [if_true]
  rw [show normal_filename cd = cd.value from rfl, hv]
  simp

/-- The output of `secure_filename` contains no backslash and no slash. -/
theorem secure_filename_no_sep (s : String) :
    ∀ c ∈ (secure_filename s).data, c ≠ backslashChar ∧ c ≠ slashChar := by
  intro c hc
  simp only [secure_filename, replaceChar] at hc
  rcases List.mem_map.mp hc with ⟨d, hd, rfl⟩
  rcases List.mem_map.mp hd with ⟨e, _, rfl⟩
  by_cases h1 : e = backslashChar
  · subst h1
    constructor <;> decide
  · have h1b : (e == backslashChar) = false := beq_eq_false_iff_ne.mpr h1
    simp only [h1b, Bool.false_eq_true, if_false]
    by_cases h2 : e = slashChar
    · subst h2
      constructor <;> decide
    · have h2b : (e == slashChar) = false := beq_eq_false_iff_ne.mpr h2
      simp only [h2b, Bool.false_eq_true, if_false]
      exact ⟨h1, h2⟩

/-- A filename value returned by `parse_filename` never contains a backslash
or a slash: either it is the empty string or it went through
`secure_filename`. -/
theorem parse_filename_no_sep (h : String) (f : String)
    (hp : parse_filename h false = Except.ok (some f)) :
    ∀ c ∈ f.data, c ≠ backslashChar ∧ c ≠ slashChar := by
  intro c hc
  unfold parse_filename at hp
  cases hpp : parse h with
  | error e => rw [hpp] at hp; cases hp
  | ok tc =>
    obtain ⟨t, cds⟩ := tc
    rw [hpp] at hp
    have hp2 : Except.ok (resolve_filename cds) = Except.ok (some f) := hp
    have hres : resolve_filename cds = some f := by injection hp2
    unfold resolve_filename at hres
    cases hr : run_handlers cds (header_handlers cds) none with
    | none =>
      rw [hr] at hres
      have hres3 : (none : Option String) = some f := hres
      cases hres3
    | some g =>
      rw [hr] at hres
      have hres3 : (if (g == "") = true then some g else some (secure_filename g))
          = some f := hres
      cases hg : g == "" with
      | true =>
        rw [hg] at hres3
        simp only [if_true] at hres3
        have hgf : g = f := by injection hres3
        have hge : g = "" := beq_iff_eq.mp hg
        rw [← hgf, hge] at hc
        cases hc
      | false =>
        rw [hg] at hres3
        simp only [Bool.false_eq_true, if_false] at hres3
        have hgf : secure_filename g = f := by injection hres3
        rw [← hgf] at hc
        exact secure_filename_no_sep g c hc

/-! ## Claims -/

/-- Claim C1, counterexample: contrary to the claim, the header
`attachment; filename*=bogus''x` is not parsed with the parameter silently
omitted — `ext_value.parse_string` fails on `bogus''x` (the charset
alternative is `UTF-8`, `ISO-8859-1` or empty, and after the empty match the
expected quote is not there), so `parse` raises and `parse_filename`
propagates the error instead of returning an absent filename. -/
theorem C1_counterexample :
    parse "attachment; filename*=bogus''x" = Except.error PError.parseException
    ∧ parse_filename "attachment; filename*=bogus''x" false
        = Except.error PError.parseException := by
  constructor <;> rfl

/-- Claim C1, amended: an extended parameter whose value does not parse as an
`ext-value` — in particular one carrying a nonempty unrecognized charset
token such as `bogus` before the first quote — makes `parse` fail with
`ParseError` rather than being silently omitted, and `parse_filename`
propagates that error instead of returning an absent filename.  A parameter
is silently skipped when its value parses as an ext-value whose charset slot
is empty: then `parse` succeeds with the parameter omitted and
`parse_filename` returns an absent filename when nothing else matches; the
value's leading whitespace is skipped first, so a quoted value such as
`" ''x"` is also skipped, not an error. -/
theorem C1_amended :
    (∀ (seen : List String) (acc : List ContentDisposition)
        (rest : List (String × String)) (p v : String),
      seen.contains p = false →
      ends_with_star (str_lower (drop_last_char p)) = true →
      ext_value_parse_all v = none →
      process_parms seen acc ((p, v) :: rest) = Except.error PError.parseException)
    ∧ ext_value_parse_all "bogus''x" = none
    ∧ parse "attachment; filename*=''x" = Except.ok ("attachment", [])
    ∧ parse_filename "attachment; filename*=''x" false = Except.ok none
    ∧ parse "attachment; filename*=\" ''x\"" = Except.ok ("attachment", []) := by
  refine ⟨?_, rfl, rfl, rfl, rfl⟩
  intro seen acc rest p v h1 h2 h3
  simp only [process_parms, h1, Bool.false_eq_true, if_false, h2, if_true, h3]

/-- Witness for the universal part of the amended claim C1, at the concrete
parameter of the counterexample header. -/
theorem C1_amended_witness :
    process_parms [] [] [("filename*=", "bogus''x")] = Except.error PError.parseException :=
  C1_amended.1 [] [] [] "filename*=" "bogus''x" rfl rfl rfl

/-- Claim C2, counterexample: contrary to the claim, two parameters whose
names differ only in letter case do not trigger the duplicate-name error:
the seen-name check happens on the raw spelling before lower-casing, so
`attachment; filename="a"; FILENAME="b"` parses, yielding both parameters
under the lower-cased name. -/
theorem C2_counterexample :
    parse "attachment; filename=\"a\"; FILENAME=\"b\""
      = Except.ok ("attachment", [⟨"filename", "a"⟩, ⟨"filename", "b"⟩]) := by
  rfl

/-- Claim C2, amended: the duplicate-parameter check compares the raw
spellings (original case, before lower-casing): any header whose grammar
parse yields two parameters with the same raw spelling fails with
`ParseError`, while names equal only case-insensitively are both kept. -/
theorem C2_amended :
    (∀ (h ty : String) (pairs : List (String × String)),
      parser_run h = some (ty, pairs) →
      has_raw_dup (pairs.map Prod.fst) = true →
      parse h = Except.error PError.parseException)
    ∧ parse "attachment; filename=\"a\"; filename=\"b\"" = Except.error PError.parseException
    ∧ parse "attachment; filename=\"a\"; FILENAME=\"b\""
        = Except.ok ("attachment", [⟨"filename", "a"⟩, ⟨"filename", "b"⟩]) := by
  refine ⟨?_, rfl, rfl⟩
  intro h ty pairs hrun hdup
  exact parse_ok_no_raw_dup h ty pairs hrun hdup

/-- Witness for the universal part of the amended claim C2, at a concrete
header with an exact raw duplicate. -/
theorem C2_amended_witness :
    parse "attachment; filename=\"x\"; filename=\"y\"" = Except.error PError.parseException :=
  C2_amended.1 "attachment; filename=\"x\"; filename=\"y\"" "attachment"
    [("filename=", "x"), ("filename=", "y")] rfl rfl

/-- Claim C3, counterexample: contrary to the claim's presence-based
precedence (`filename*`, else `filename`, else continuations), a present
`filename` parameter with an empty value does not win: on
`attachment; filename=""; filename*0="x"` the claimed selection picks the
empty `filename` value, but the code falls through (the `if filename:`
truthiness test) and returns the continuation value `"x"`. -/
theorem C3_counterexample :
    parse "attachment; filename=\"\"; filename*0=\"x\""
      = Except.ok ("attachment", [⟨"filename", ""⟩, ⟨"filename*0", "x"⟩])
    ∧ spec_claimed_precedence [⟨"filename", ""⟩, ⟨"filename*0", "x"⟩] = some ""
    ∧ parse_filename "attachment; filename=\"\"; filename*0=\"x\"" false
        = Except.ok (some "x") := by
  refine ⟨rfl, rfl, rfl⟩

/-- Claim C3, amended: the resolver follows the fixed order `filename*`,
`filename`, `filename*0*`, `filename*0`, but a parameter only wins if its
resolved value is non-empty (Python truthiness); in particular a `filename*`
parameter whose first occurrence has a non-empty decoded value is returned
(sanitized) whatever other filename parameters are present, and with no
`filename*` at all a non-empty `filename` value is returned likewise. -/
theorem C3_amended :
    (∀ (h t : String) (cds : List ContentDisposition) (cd : ContentDisposition),
      parse h = Except.ok (t, cds) →
      findParm cds "filename*" = some cd →
      cd.value ≠ "" →
      parse_filename h false = Except.ok (some (secure_filename cd.value)))
    ∧ (∀ (h t : String) (cds : List ContentDisposition) (cd : ContentDisposition),
      parse h = Except.ok (t, cds) →
      findParm cds "filename*" = none →
      findParm cds "filename" = some cd →
      cd.value ≠ "" →
      parse_filename h false = Except.ok (some (secure_filename cd.value))) := by
  constructor
  · intro h t cds cd hp hf hv
    unfold parse_filename
    rw [hp]
    show Except.ok (resolve_filename cds) = _
    rw [resolve_filename_star cds cd hf (beq_eq_false_iff_ne.mpr hv)]
  · intro h t cds cd hp hstar hf hv
    unfold parse_filename
    rw [hp]
    show Except.ok (resolve_filename cds) = _
    rw [resolve_filename_plain cds cd hstar hf (beq_eq_false_iff_ne.mpr hv)]

/-- Witness for the amended claim C3: with `filename*`, `filename` and
`filename*0` all present, the `filename*` value wins. -/
theorem C3_amended_witness :
    parse_filename "attachment; filename*=UTF-8''a; filename=\"b\"; filename*0=\"c\"" false
      = Except.ok (some "a") :=
  C3_amended.1 "attachment; filename*=UTF-8''a; filename=\"b\"; filename*0=\"c\""
    "attachment" [⟨"filename*", "a"⟩, ⟨"filename", "b"⟩, ⟨"filename*0", "c"⟩]
    ⟨"filename*", "a"⟩ rfl rfl (by decide)

/-- Claim C4, confirmed: continuation assembly starts from the initial
segment's value and, for i counting up from 1 within the source's bound of
99998 iterations (`range(1, 99999)`), appends the value of `filename*{i}*`
if present, else that of `filename*{i}` if present, and stops at the first i
with neither — a gap ends assembly.  The two quoted examples evaluate as the
claim states. -/
theorem C4_confirmed :
    (∀ (cds : List ContentDisposition) (acc : String) (i fuel : Nat),
      findParm cds (seg_name i true) = none →
      findParm cds (seg_name i false) = none →
      combine_aux cds (fuel + 1) i acc = acc)
    ∧ (∀ (cds : List ContentDisposition) (acc : String) (i fuel : Nat)
        (cd : ContentDisposition),
      findParm cds (seg_name i true) = some cd →
      combine_aux cds (fuel + 1) i acc = combine_aux cds fuel (i + 1) (acc ++ cd.value))
    ∧ (∀ (cds : List ContentDisposition) (acc : String) (i fuel : Nat)
        (cd : ContentDisposition),
      findParm cds (seg_name i true) = none →
      findParm cds (seg_name i false) = some cd →
      combine_aux cds (fuel + 1) i acc = combine_aux cds fuel (i + 1) (acc ++ cd.value))
    ∧ (∀ (cds : List ContentDisposition) (cd : ContentDisposition),
      combine_filename cds cd = combine_aux cds 99998 1 cd.value)
    ∧ parse_filename "attachment; filename*0=\"foo\"; filename*1=\"bar.html\"" false
        = Except.ok (some "foobar.html")
    ∧ parse_filename "attachment; filename*0=\"foo\"; filename*2=\"bar\"" false
        = Except.ok (some "foo") := by
  refine ⟨?_, ?_, ?_, fun cds cd => rfl, rfl, rfl⟩
  · intro cds acc i fuel h1 h2
    simp only [combine_aux, h1, h2]
  · intro cds acc i fuel cd h1
    simp only [combine_aux, h1]
  · intro cds acc i fuel cd h1 h2
    simp only [combine_aux, h1, h2]

/-- Witness for the universal parts of claim C4: with no parameters at all,
assembly stops immediately at index 1 and keeps the initial value. -/
theorem C4_confirmed_witness :
    combine_aux [] 5 1 "seed" = "seed" :=
  C4_confirmed.1 [] "seed" 1 4 rfl rfl

/-- Claim C5, counterexample: contrary to the claim, the grammar tolerates
whitespace between tokens and parameters — pyparsing skips its default
whitespace before each element — so `attachment; filename=x` (with a space
after the semicolon, the very input the claim says is rejected) parses
successfully. -/
theorem C5_counterexample :
    parse "attachment; filename=x" = Except.ok ("attachment", [⟨"filename", "x"⟩]) := by
  rfl

/-- Claim C5, amended: whitespace (space, newline, tab, carriage return)
before tokens and parameters, and leading or trailing whitespace, is skipped
and tolerated; whitespace splitting a single token still makes the parse fail
because of leftover input. -/
theorem C5_amended :
    parse " attachment ; filename = x " = Except.ok ("attachment", [⟨"filename", "x"⟩])
    ∧ parse "attachment;\n\tfilename=\"foo.html\""
        = Except.ok ("attachment", [⟨"filename", "foo.html"⟩])
    ∧ parse "attach ment" = Except.error PError.parseException := by
  refine ⟨rfl, rfl, rfl⟩

/-- Claim C6, counterexample: contrary to the claim, an empty resolved
filename is not returned as an absent value: on `attachment; filename=""`
the resolver assigns the empty string and `parse_filename` returns the empty
string itself (a present value), not `None`. -/
theorem C6_counterexample :
    parse_filename "attachment; filename=\"\"" false = Except.ok (some "")
    ∧ (some "" : Option String) ≠ none := by
  exact ⟨rfl, by decide⟩

/-- Claim C6, amended: a non-empty resolved filename is returned through
`secure_filename` (every backslash and slash replaced by an underscore, so no
returned filename ever contains a path separator); when no rule matches the
result is an absent value; but a rule resolving the empty string returns the
empty string itself rather than an absent value. -/
theorem C6_amended :
    (∀ (h f : String), parse_filename h false = Except.ok (some f) →
      ∀ c ∈ f.data, c ≠ backslashChar ∧ c ≠ slashChar)
    ∧ (∀ (cds : List ContentDisposition) (g : String),
      run_handlers cds (header_handlers cds) none = some g → g ≠ "" →
      resolve_filename cds = some (secure_filename g))
    ∧ parse_filename "attachment; filename=\"a/b\\\\c\"" false = Except.ok (some "a_b_c")
    ∧ parse_filename "attachment" false = Except.ok none
    ∧ parse_filename "attachment; filename=\"\"" false = Except.ok (some "") := by
  refine ⟨parse_filename_no_sep, ?_, rfl, rfl, rfl⟩
  intro cds g hr hg
  unfold resolve_filename
  rw [hr]
  simp only [beq_eq_false_iff_ne.mpr hg, Bool.false_eq_true, if_false]

/-- Witness for the universal parts of the amended claim C6, at the concrete
header `attachment; filename="a"`. -/
theorem C6_amended_witness :
    ('a' ≠ backslashChar ∧ 'a' ≠ slashChar) :=
  C6_amended.1 "attachment; filename=\"a\"" "a" rfl 'a' (by decide)

/-- Claim C7, confirmed: the RFC 6266 example header decodes the
percent-encoded octets as bytes interpreted in the declared UTF-8 charset,
yielding the euro sign: `parse_filename` returns the Unicode string, and
`parse` yields disposition type `attachment` with the single parameter
`filename*` holding the decoded value. -/
theorem C7_confirmed :
    parse_filename "attachment; filename*=UTF-8''%e2%82%ac%20rates.txt" false
      = Except.ok (some "€ rates.txt")
    ∧ parse "attachment; filename*=UTF-8''%e2%82%ac%20rates.txt"
        = Except.ok ("attachment", [⟨"filename*", "€ rates.txt"⟩]) := by
  exact ⟨rfl, rfl⟩

/-- Claim C8, confirmed: an extended parameter declared `ISO-8859-1` whose
decoded string contains a code point in U+0000 to U+001F or U+007F to U+009F
makes `parse` fail with `ParseError`, while a `UTF-8` declaration adds no
restriction beyond UTF-8 validity: the decoded value is accepted whatever
characters it contains. -/
theorem C8_confirmed :
    (∀ (seen : List String) (acc : List ContentDisposition)
        (rest : List (String × String)) (p v : String) (ev : ExtValue) (e vs : String),
      seen.contains p = false →
      ends_with_star (str_lower (drop_last_char p)) = true →
      ext_value_parse_all v = some ev →
      ev.encoding = some e →
      str_lower e = "iso-8859-1" →
      unquote ev.value "iso-8859-1" = some vs →
      has_invalid_iso vs = true →
      process_parms seen acc ((p, v) :: rest) = Except.error PError.parseException)
    ∧ (∀ (seen : List String) (acc : List ContentDisposition)
        (rest : List (String × String)) (p v : String) (ev : ExtValue) (e vs : String),
      seen.contains p = false →
      ends_with_star (str_lower (drop_last_char p)) = true →
      ext_value_parse_all v = some ev →
      ev.encoding = some e →
      str_lower e = "utf-8" →
      unquote ev.value "utf-8" = some vs →
      process_parms seen acc ((p, v) :: rest)
        = process_parms (p :: seen) (acc ++ [⟨str_lower (drop_last_char p), vs⟩]) rest)
    ∧ parse "attachment; filename*=ISO-8859-1''%01" = Except.error PError.parseException
    ∧ parse "attachment; filename*=UTF-8''%01"
        = Except.ok ("attachment", [⟨"filename*", "\x01"⟩]) := by
  refine ⟨?_, ?_, rfl, rfl⟩
  · intro seen acc rest p v ev e vs h1 h2 h3 h4 h5 h6 h7
    simp only [process_parms, h1, Bool.false_eq_true, if_false, h2, if_true, h3, h4, h5,
      h6, h7, beq_self_eq_true, Bool.and_self, Bool.and_true]
  · intro seen acc rest p v ev e vs h1 h2 h3 h4 h5 h6
    simp only [process_parms, h1, Bool.false_eq_true, if_false, h2, if_true, h3, h4, h5, h6]
    rfl

/-- Witness for the universal parts of claim C8, at the concrete
counterpart of the quoted `%01` example. -/
theorem C8_confirmed_witness :
    process_parms [] [] [("filename*=", "ISO-8859-1''%01")] = Except.error PError.parseException :=
  C8_confirmed.1 [] [] [] "filename*=" "ISO-8859-1''%01" ⟨some "ISO-8859-1", "%01"⟩
    "ISO-8859-1" "\x01" rfl rfl rfl rfl rfl rfl rfl

/-- Claim C9, confirmed: when the parsed (lower-cased) disposition type is
neither `attachment` nor `inline`, `parse_filename` with type enforcement
returns an absent filename regardless of the parameters present. -/
theorem C9_confirmed :
    ∀ (h t : String) (cds : List ContentDisposition),
      parse h = Except.ok (t, cds) → t ≠ "attachment" → t ≠ "inline" →
      parse_filename h true = Except.ok none := by
  intro h t cds hp h1 h2
  unfold parse_filename
  rw [hp]
  simp only [beq_eq_false_iff_ne.mpr h1, beq_eq_false_iff_ne.mpr h2, Bool.or_self,
    Bool.not_false, Bool.true_and, Bool.false_or, if_true]

/-- Witness for claim C9, at a header with a custom disposition type and a
present `filename` parameter. -/
theorem C9_confirmed_witness :
    parse_filename "custom-type; filename=x" true = Except.ok none :=
  C9_confirmed "custom-type; filename=x" "custom-type" [⟨"filename", "x"⟩]
    rfl (by decide) (by decide)

/-- Claim C10, confirmed: an extended parameter whose value begins with a
single quote (empty charset slot) and parses as an ext-value is skipped —
omitted from the output — while its raw spelling is still recorded as seen,
so a later parameter with the identical raw spelling fails with
`ParseError`. -/
theorem C10_confirmed :
    (∀ (seen : List String) (acc : List ContentDisposition)
        (rest : List (String × String)) (p v : String) (ev : ExtValue),
      seen.contains p = false →
      ends_with_star (str_lower (drop_last_char p)) = true →
      ext_value_parse_all v = some ev →
      ev.encoding = none →
      process_parms seen acc ((p, v) :: rest) = process_parms (p :: seen) acc rest)
    ∧ parse "attachment; filename*=''x" = Except.ok ("attachment", [])
    ∧ parse "attachment; filename*=''x; filename*=''y" = Except.error PError.parseException := by
  refine ⟨?_, rfl, rfl⟩
  intro seen acc rest p v ev h1 h2 h3 h4
  simp only [process_parms, h1, Bool.false_eq_true, if_false, h2, if_true, h3, h4]

/-- Witness for the universal part of claim C10, at the concrete skipped
parameter of the quoted header. -/
theorem C10_confirmed_witness :
    process_parms [] [] [("filename*=", "''x")] = process_parms ["filename*="] [] [] :=
  C10_confirmed.1 [] [] [] "filename*=" "''x" ⟨none, "x"⟩ rfl rfl rfl rfl

end Pyrfc6266
